import Mathlib

/-!
Shallow embedding of the `data-mesher` data model (`src/data_mesher/data.py`)
and proofs about its merge, signing and loading behaviour.

Modelling conventions, fixed once for the whole file:

* Python `datetime` values are modelled at integer-second resolution
  (`Int`, a unix timestamp).  `int(x.timestamp())` in the canonical encoding
  is then the identity.  None of the properties settled here depend on
  sub-second distinctions.
* `ipaddress.IPv6Address` values are modelled by their canonical textual
  form (`String`); `str(ip)` is the identity.  The textual form of an
  address is unique (RFC 5952), so distinct strings are distinct addresses.
* Ed25519 key pairs are modelled by the base64 string of the verify key:
  `SigningKey` is that string and `SigningKey.verify_key` is the identity,
  reflecting the bijection between signing and verify keys.
* `json.dumps` of the canonical document is injective on the documents the
  program builds (sorted string keys, string/int/bool scalars), so signed
  messages are kept as structured documents rather than strings; equality
  of dumps is equality of documents.
* Signature bytes are modelled by the inductive `Signature`.
  `SigningKey.sign(msg, encoder=Base64Encoder)` yields a base64 blob that
  embeds the message (`hostSig`/`nameSig`); such a blob is never exactly
  64 bytes long.  `detached` stands for an exactly-64-byte valid detached
  signature (constructible through the state file), `raw` for any other
  byte string.
* `VerifyKey.verify` raises `BadSignatureError` when the blob is not a
  message validly signed by the key.  In `Host.verify` (used by
  `Host.merge`) we conflate this raise with the compare-false outcome:
  both leave `self` unchanged in `merge` (the raise additionally aborts
  the enclosing loop, which none of the settled claims depend on).  In
  `Hostname.verify_signature` the raise is modelled faithfully with
  `Except` because claim C10 is about exactly that behaviour.
* Python dicts are modelled as association lists with unique keys;
  dict equality is content equality, which the theorems express through
  pointwise lookup.
-/

/-- Scalar JSON values appearing in canonical documents. -/
inductive Prim where
  | str (s : String)
  | int (n : Int)
  | bool (b : Bool)
deriving DecidableEq, Repr

/-- A flat JSON object (string keys, scalar values): the canonical form of a
`Hostname`. -/
abbrev FlatObj := List (String × Prim)

/-- A field of the canonical form of a `Host`: a scalar or the `hostnames`
mapping (whose values are flat objects). -/
inductive HField where
  | prim (p : Prim)
  | obj (o : List (String × FlatObj))
deriving DecidableEq, Repr

/-- The canonical form of a `Host`: a JSON object whose values are scalars or
the one-level-deep `hostnames` object. -/
abbrev HostObj := List (String × HField)

/-- Model of signature byte strings.  `hostSig`/`nameSig` are the base64
`SignedMessage` blobs produced by `SigningKey.sign(..., encoder=Base64Encoder)`
over a host / hostname canonical document; they embed the signer and the
message and are always longer than 64 bytes.  `detached` is an exactly-64-byte
valid detached Ed25519 signature by `signer` over `msg` (such bytes can enter
through the state file).  `raw` is any other byte string. -/
inductive Signature where
  | hostSig (signer : String) (msg : HostObj)
  | nameSig (signer : String) (msg : FlatObj)
  | detached (signer : String) (msg : FlatObj)
  | raw (s : String)
deriving DecidableEq, Repr

/-- Python truthiness of an optional signature byte string: `None` and `b""`
are falsy, everything else truthy. -/
def sigPresent : Option Signature → Bool
  | none => false
  | some (.raw s) => !(s == "")
  | some _ => true

/-- Model of `bytes.decode()` on a signature blob: an executable rendering
into a string.  Only used as an opaque value inside documents; no theorem
depends on its exact shape. -/
def primDump : Prim → String
  | .str s => "s:" ++ s
  | .int n => "i:" ++ toString n
  | .bool b => "b:" ++ toString b

/-- Rendering of a flat object, used by `Signature.decode`. -/
def flatDump (o : FlatObj) : String :=
  String.intercalate "," (o.map (fun kv => kv.1 ++ "=" ++ primDump kv.2))

/-- Rendering of a host-level field, used by `Signature.decode`. -/
def hfieldDump : HField → String
  | .prim p => primDump p
  | .obj o => String.intercalate ";" (o.map (fun kv => kv.1 ++ ">" ++ flatDump kv.2))

/-- Model of `bytes.decode()` on signature bytes (base64 text). -/
def Signature.decode : Signature → String
  | .hostSig k m =>
      "B64(" ++ k ++ "|" ++ String.intercalate "," (m.map (fun kv => kv.1 ++ "=" ++ hfieldDump kv.2)) ++ ")"
  | .nameSig k m => "B64(" ++ k ++ "|" ++ flatDump m ++ ")"
  | .detached k m => "D64(" ++ k ++ "|" ++ flatDump m ++ ")"
  | .raw s => s

/-- Lexicographic comparison of character lists by code point: Python's
`str` ordering. -/
def charsLt : List Char → List Char → Bool
  | [], [] => false
  | [], _ :: _ => true
  | _ :: _, [] => false
  | a :: as, b :: bs =>
      if a.toNat < b.toNat then true
      else if b.toNat < a.toNat then false
      else charsLt as bs

/-- Python `str` comparison (`a < b`) on the underlying code points. -/
def keyLt (a b : String) : Bool := charsLt a.data b.data

/-- Stable insertion of a key-value pair into a key-sorted list
(`p` goes after entries with an equal or smaller key). -/
def insertPair {α : Type} (p : String × α) : List (String × α) → List (String × α)
  | [] => [p]
  | q :: t => if keyLt p.1 q.1 then p :: q :: t else q :: insertPair p t

/-- Model of Python `dict(sorted(d.items()))`: sort the entries by key.
Keys are unique, so comparing only keys agrees with Python's tuple
comparison. -/
def sortPairs {α : Type} : List (String × α) → List (String × α)
  | [] => []
  | p :: t => insertPair p (sortPairs t)

/-- First value stored under key `k` (Python `d[k]` / `k in d`). -/
def alLookup {α : Type} (k : String) : List (String × α) → Option α
  | [] => none
  | (k', v) :: t => if k' == k then some v else alLookup k t

/-- Replace the first entry with key `k` (Python `d[k] = v` on a present
key: the entry keeps its position). -/
def alUpdate {α : Type} (k : String) (v : α) : List (String × α) → List (String × α)
  | [] => []
  | (k', v') :: t => if k' == k then (k', v) :: t else (k', v') :: alUpdate k v t

/-- Python `d[k] = v`: overwrite in place when `k` is present, else append. -/
def alSet {α : Type} (k : String) (v : α) (l : List (String × α)) : List (String × α) :=
  if (alLookup k l).isSome then alUpdate k v l else l ++ [(k, v)]

/-- SigningKey is identified with the base64 string of its verify key
(the Ed25519 seed/verify-key bijection). -/
abbrev SigningKey := String

/-- Model of `SigningKey.verify_key` under the identification above. -/
def SigningKey.verify_key (k : SigningKey) : String := k

/-- `Hostname` from `data.py`: a claimed short name, optionally signed. -/
structure Hostname where
  hostname : String
  signed_at : Option Int
  signature : Option Signature
deriving DecidableEq, Repr

/-- `Hostname.data_to_sign`: `{"hostname": ...}` plus `"signed_at"` when both
`signed_at` and `signature` are truthy, sorted by key. -/
def Hostname.data_to_sign (hn : Hostname) : FlatObj :=
  let data : FlatObj := [("hostname", .str hn.hostname)]
  let data :=
    match hn.signed_at, sigPresent hn.signature with
    | some t, true => data ++ [("signed_at", .int t)]
    | _, _ => data
  sortPairs data

/-- `Hostname.__json__`: the canonical form plus, when signed, the
`"signature"` (decoded bytes) and `"signed_at"` entries, sorted by key. -/
def Hostname.json (hn : Hostname) : FlatObj :=
  let data := hn.data_to_sign
  match hn.signed_at, hn.signature, sigPresent hn.signature with
  | some t, some sg, true =>
      sortPairs (alSet "signed_at" (.int t) (alSet "signature" (.str sg.decode) data))
  | _, _, _ => sortPairs data

/-- `Host` from `data.py`: a node's self-advertisement.  After `__init__`
(whose assertion requires a signature or a signing key) a host always
carries a signature, so the field is not optional here. -/
structure Host where
  ip : String
  port : Int
  public_key : String
  last_seen : Int
  hostnames : List (String × Hostname)
  signature : Signature
deriving DecidableEq, Repr

/-- The `hostnames` object inside `Host.data_to_sign`: each entry rendered by
`Hostname.__json__`, then sorted by name. -/
def hostnamesEnc (hs : List (String × Hostname)) : List (String × FlatObj) :=
  sortPairs (hs.map (fun kv => (kv.1, kv.2.json)))

/-- `Host.data_to_sign`: `{"port", "ip", "last_seen", "hostnames"}` sorted by
key; the host's own `signature` is omitted, the hostnames are rendered by
`Hostname.__json__` (which, for signed hostnames, includes their
signatures). -/
def Host.data_to_sign (h : Host) : HostObj :=
  sortPairs
    [("port", .prim (.int h.port)),
     ("ip", .prim (.str h.ip)),
     ("last_seen", .prim (.int h.last_seen)),
     ("hostnames", .obj (hostnamesEnc h.hostnames))]

/-- `Host.verify`: `public_key.verify(signature, Base64)` returns the embedded
message when the blob was validly signed by `public_key`; the result is
compared with the current canonical bytes.  A blob not signed by
`public_key` raises `BadSignatureError` in Python; since `Host.merge`
leaves `self` unchanged in that case too, the raise is conflated with
`false` here. -/
def Host.verify (h : Host) : Bool :=
  match h.signature with
  | .hostSig signer msg => signer == h.public_key && msg == h.data_to_sign
  | _ => false

/-- `Host.merge`: adopt `other` wholesale when it is strictly newer and
verifies; otherwise leave `self` unchanged.  (`data.py` lines 133-145: all
six fields are copied, including the entire `hostnames` map.) -/
def Host.merge (s other : Host) : Host :=
  if other.last_seen > s.last_seen then
    if other.verify then
      { s with
        ip := other.ip
        port := other.port
        public_key := other.public_key
        last_seen := other.last_seen
        signature := other.signature
        hostnames := other.hostnames }
    else s
  else s

/-- `Host.update_signature`: set `last_seen` to the injected clock value
(`datetime.now()`), then sign the resulting canonical bytes. -/
def Host.update_signature (h : Host) (k : SigningKey) (now : Int) : Host :=
  let h1 := { h with last_seen := now }
  { h1 with signature := .hostSig k.verify_key h1.data_to_sign }

/-- The body of the merge loops shared by `Network.merge` (over hosts) and
`DataMesher.merge` (over networks): merge into an entry already present in
the accumulator, else append the new entry. -/
def mergeStep {α : Type} (f : α → α → α) (acc : List (String × α)) (kv : String × α) :
    List (String × α) :=
  match alLookup kv.1 acc with
  | some x => alUpdate kv.1 (f x kv.2) acc
  | none => acc ++ [kv]

/-- The `for x in other: if x in self: combine else: insert` loop of
`Network.merge` and `DataMesher.merge`. -/
def mergeAL {α : Type} (f : α → α → α) (s o : List (String × α)) : List (String × α) :=
  o.foldl (mergeStep f) s

/-- `Network` from `data.py`.  The `data_mesher` back-reference and the
`hosts` property are modelled for the `data_mesher = None` / `host = None`
case, where the property returns `_hosts` unchanged; `_hosts` is the
`hosts` field here. -/
structure Network where
  last_update : Int
  tld : String
  public : Bool
  host_signing_keys : List String
  banned_keys : List String
  hostname_overrides : List FlatObj
  hosts : List (String × Host)
deriving DecidableEq, Repr

/-- `Network.merge` (`data.py` lines 247-267): when `other.last_update` is
strictly newer, adopt the five settings fields — but not `last_update`
itself, which the source never copies; then fold `other.hosts` into the own
host map.  No `banned_keys` check and no verification of newly inserted
hosts occur (the verify branch is commented out in the source). -/
def Network.merge (s other : Network) : Network :=
  let s1 :=
    if other.last_update > s.last_update then
      { s with
        tld := other.tld
        public := other.public
        host_signing_keys := other.host_signing_keys
        banned_keys := other.banned_keys
        hostname_overrides := other.hostname_overrides }
    else s
  { s1 with hosts := mergeAL Host.merge s1.hosts other.hosts }

/-- `DataMesher` restricted to its replicated state: the `networks` mapping.
The `state_file`, `dns_file`, `key` and `host` fields only matter for I/O
and for the self-host injection, which the settled claims do not touch
(`host = None`). -/
structure DataMesher where
  networks : List (String × Network)
deriving DecidableEq, Repr

/-- `DataMesher.merge`: merge each of `other`'s networks into the own map,
adopting unknown networks wholesale. -/
def DataMesher.merge (s other : DataMesher) : DataMesher :=
  { networks := mergeAL Network.merge s.networks other.networks }

/-- The empty mesh (no networks). -/
def emptyMesh : DataMesher := ⟨[]⟩

/-- Apply a list of update documents in order, starting from the empty mesh. -/
def applyAll (us : List DataMesher) : DataMesher :=
  us.foldl DataMesher.merge emptyMesh

/-- The network stored under name `n`. -/
def lookupNet (dm : DataMesher) (n : String) : Option Network :=
  alLookup n dm.networks

/-- The host stored under key `k` in the network named `n`. -/
def lookupHost (dm : DataMesher) (n : String) (k : String) : Option Host :=
  (lookupNet dm n).bind (fun N => alLookup k N.hosts)

/-- The six settings fields of a network (everything except `hosts`),
the unit that `Network.merge` resolves by last-writer-wins. -/
structure Settings where
  last_update : Int
  tld : String
  public : Bool
  host_signing_keys : List String
  banned_keys : List String
  hostname_overrides : List FlatObj
deriving DecidableEq, Repr

/-- Project a network onto its settings. -/
def settingsOf (N : Network) : Settings :=
  ⟨N.last_update, N.tld, N.public, N.host_signing_keys, N.banned_keys, N.hostname_overrides⟩

/-- The settings stored under network name `n`. -/
def settingsAt (dm : DataMesher) (n : String) : Option Settings :=
  (lookupNet dm n).map settingsOf

/-- Content equality of two meshes: the same networks with the same settings
and pointwise the same hosts.  This is Python `dict` equality (order of
insertion is irrelevant). -/
def dmEquiv (a b : DataMesher) : Prop :=
  ∀ n, settingsAt a n = settingsAt b n ∧ ∀ k, lookupHost a n k = lookupHost b n k

/-- Untyped JSON values, the output of `json.loads` fed to `load`.
(Floats do not occur in any document the program writes and are not
modelled.) -/
inductive JVal where
  | str (s : String)
  | int (n : Int)
  | bool (b : Bool)
  | null
  | arr (elems : List JVal)
  | obj (fields : List (String × JVal))
deriving Repr

/-- Substring test on character lists (`pat` occurs somewhere in `s`). -/
def containsSub (pat : List Char) : List Char → Bool
  | [] => pat.isEmpty
  | c :: t => pat.isPrefixOf (c :: t) || containsSub pat t

/-- Python `pat in s` on strings: substring containment. -/
def strContains (s pat : String) : Bool := containsSub pat.data s.data

/-- Base64 text of a 32-byte Ed25519 key is exactly 44 characters; the model
checks only this shape (character-level base64 validation is below its
granularity).  `VerifyKey(s, encoder=Base64Encoder)` raises on strings that
fail it. -/
def validB64Key (s : String) : Bool := s.length == 44

/-- Conversion of a JSON value to a scalar, used for `hostname_overrides`
entries. -/
def JVal.toPrim : JVal → Option Prim
  | .str s => some (.str s)
  | .int n => some (.int n)
  | .bool b => some (.bool b)
  | _ => none

/-- Conversion of a JSON object of scalars to a `FlatObj`. -/
def JVal.toFlatObj : JVal → Option FlatObj
  | .obj fs =>
      fs.foldr
        (fun kv acc =>
          match kv.2.toPrim, acc with
          | some p, some l => some ((kv.1, p) :: l)
          | _, _ => none)
        (some [])
  | _ => none

/-- One hostname entry of `load` (`data.py` lines 280-298).  This code runs
outside the per-host `try`, so its exceptions escape `load`: a present
`signed_at` with a missing or non-string `signature` raises, as does a
non-decodable `signed_at`.  `datetime.fromtimestamp` is evaluated before the
`signature` lookup (keyword-argument order). -/
def parseHostname (name : String) (v : JVal) : Except String Hostname :=
  match v with
  | .obj hf =>
      match alLookup "signed_at" hf with
      | some sa =>
          match sa with
          | .int t =>
              match alLookup "signature" hf with
              | some (.str sg) => .ok ⟨name, some t, some (.raw sg)⟩
              | some _ => .error "AttributeError: encode"
              | none => .error "KeyError: signature"
          | _ => .error "TypeError: fromtimestamp"
      | none => .ok ⟨name, none, none⟩
  | .str s =>
      -- Python `"signed_at" in <str>` is a substring test; a hit leads to
      -- string indexing, which raises
      if strContains s "signed_at" then .error "TypeError: string indices" else .ok ⟨name, none, none⟩
  | .arr es =>
      -- list membership; a hit leads to list-by-string indexing, which raises
      if es.any (fun e => match e with | .str s => s == "signed_at" | _ => false) then
        .error "TypeError: list indices"
      else .ok ⟨name, none, none⟩
  | _ => .error "TypeError: argument not iterable"

/-- The `hostnames` loop of `load`.  Iterating an empty string or list yields
no entries; other non-object shapes raise when the loop body indexes into
them (integer-element self-indexing edge cases of lists are collapsed to the
raise). -/
def parseHostnames (v : JVal) : Except String (List (String × Hostname)) :=
  match v with
  | .obj hf =>
      hf.foldlM
        (fun acc kv => (parseHostname kv.1 kv.2).map (fun hn => alSet kv.1 hn acc))
        []
  | .str "" => .ok []
  | .arr [] => .ok []
  | .str _ => .error "TypeError: string indices"
  | .arr _ => .error "TypeError: list indices"
  | _ => .error "TypeError: argument not iterable"

/-- One host entry of `load` (`data.py` lines 277-313).  The `hostnames`
access runs before the `try`, so its failures escape; everything inside the
`try` (`IPv6Address`, key decoding, the `Host` constructor and its
assertion) is caught, logged and skips the host — those paths return
`ok none`.  Typed-model collapses, none of which a theorem touches: a
non-string `ip` or non-integer `port` skips the host (Python would accept an
integer `ip` and store any `port` value as-is). -/
def parseHost (key : String) (v : JVal) : Except String (Option (String × Host)) :=
  match v with
  | .obj hf =>
      match alLookup "hostnames" hf with
      | none => .error "KeyError: hostnames"
      | some hv =>
          (parseHostnames hv).map (fun hostnames =>
            match alLookup "ip" hf, alLookup "port" hf, alLookup "last_seen" hf,
                alLookup "signature" hf with
            | some (.str ip), some (.int port), some (.int ls), some (.str sg) =>
                -- `Host.__init__` asserts a truthy signature: b"" fails it
                if validB64Key key && !(sg == "") then
                  some (key, ⟨ip, port, key, ls, hostnames, .raw sg⟩)
                else none
            | _, _, _, _ => none)
  | _ => .error "TypeError: host document"

/-- The settings part of one network entry of `load` (`data.py` lines
314-327), evaluated after the hosts loop, fields in keyword order.  All of
these accesses are outside any `try`, so failures escape `load`.
Typed-model collapses (commented in place) never touched by a theorem:
Python stores `tld`, `public`, `banned_keys` and `hostname_overrides`
unchecked; the typed model requires their documented shapes. -/
def parseSettings (v : JVal) : Except String (Int × String × Bool × List String × List String × List FlatObj) :=
  match v with
  | .obj sf => do
      let tld ← match alLookup "tld" sf with
        | some (.str s) => .ok s
        | some _ => .error "TypeError: tld"
        | none => .error "KeyError: tld"
      let pub ← match alLookup "public" sf with
        | some (.bool b) => .ok b
        | some _ => .error "TypeError: public"
        | none => .error "KeyError: public"
      let lu ← match alLookup "last_update" sf with
        | some (.int t) => .ok t
        | some _ => .error "TypeError: fromtimestamp"
        | none => .error "KeyError: last_update"
      let hsk ← match alLookup "host_signing_keys" sf with
        | some (.arr es) =>
            es.foldrM
              (fun e acc =>
                match e with
                | .str s => if validB64Key s then .ok (s :: acc) else .error "ValueError: VerifyKey"
                | _ => .error "ValueError: VerifyKey")
              []
        | some _ => .error "TypeError: host_signing_keys"
        | none => .error "KeyError: host_signing_keys"
      let banned ← match alLookup "banned_keys" sf with
        | some (.arr es) =>
            es.foldrM
              (fun e acc => match e with | .str s => .ok (s :: acc) | _ => .error "TypeError: banned_keys")
              []
        | some _ => .error "TypeError: banned_keys"
        | none => .error "KeyError: banned_keys"
      let overrides ← match alLookup "hostname_overrides" sf with
        | some (.arr es) =>
            es.foldrM
              (fun e acc =>
                match e.toFlatObj with
                | some f => .ok (f :: acc)
                | none => .error "TypeError: hostname_overrides")
              []
        | some _ => .error "TypeError: hostname_overrides"
        | none => .error "KeyError: hostname_overrides"
      pure (lu, tld, pub, hsk, banned, overrides)
  | _ => .error "TypeError: settings"

/-- One network entry of `load`: the hosts loop first (its first access is
`data[network]["hosts"]`, whose `KeyError` escapes), then the settings. -/
def parseNetwork (v : JVal) : Except String Network :=
  match v with
  | .obj nf =>
      match alLookup "hosts" nf with
      | none => .error "KeyError: hosts"
      | some hv => do
          let hosts ←
            match hv with
            | .obj hostFields =>
                hostFields.foldlM
                  (fun acc kv =>
                    (parseHost kv.1 kv.2).map (fun res =>
                      match res with
                      | some (k, h) => alSet k h acc
                      | none => acc))
                  []
            | .str "" => .ok []
            | .arr [] => .ok []
            | _ => .error "TypeError: hosts"
          let (lu, tld, pub, hsk, banned, overrides) ←
            match alLookup "settings" nf with
            | none => .error "KeyError: settings"
            | some sv => parseSettings sv
          pure ⟨lu, tld, pub, hsk, banned, overrides, hosts⟩
  | _ => .error "TypeError: network document"

/-- `load` (`data.py` lines 272-329): build the networks mapping from a
decoded state document.  Iterating a non-object first either yields nothing
(empty string or list) or raises once the loop body indexes into the value. -/
def load (data : JVal) : Except String (List (String × Network)) :=
  match data with
  | .obj nets =>
      nets.foldlM
        (fun acc kv => (parseNetwork kv.2).map (fun N => alSet kv.1 N acc))
        []
  | .str "" => .ok []
  | .arr [] => .ok []
  | _ => .error "TypeError: top-level document"

/-- Python dict union `a | b` (right operand wins on common keys). -/
def alUnion {α : Type} (a b : List (String × α)) : List (String × α) :=
  a.map (fun kv => (kv.1, ((alLookup kv.1 b).getD kv.2))) ++
    b.filter (fun kv => (alLookup kv.1 a).isNone)

/-- The state file as `DataMesher.__init__` observes it: absent, present but
not valid JSON (`json.loads` raises `JSONDecodeError`), or decoded to a JSON
value. -/
inductive StateFile where
  | missing
  | invalid
  | validJson (j : JVal)

/-- The `networks` mapping computed by `DataMesher.__init__` (`data.py`
lines 339-361): a missing file keeps the class-level default `{}`; a
`JSONDecodeError` is caught and replaced by `{}`; any other decoded value is
passed to `load`, whose exceptions escape the constructor.  The result is
then unioned with the `networks` argument. -/
def DataMesher.initNetworks (fs : StateFile) (networks : List (String × Network)) :
    Except String (List (String × Network)) :=
  let loaded : Except String (List (String × Network)) :=
    match fs with
    | .missing => .ok []
    | .invalid => load (.obj [])
    | .validJson j => load j
  loaded.map (fun ns => alUnion ns networks)

/-- pynacl `VerifyKey.verify(smessage, signature)` as called by
`Hostname.verify_signature`: `smessage` is the raw canonical bytes,
`signature` the stored blob passed as a detached signature.  A `None`
signature sends the bare message to `crypto_sign_open`, which rejects it
(`BadSignatureError`).  A base64 `SignedMessage` blob produced by
`SigningKey.sign(..., encoder=Base64Encoder)` is never exactly 64 bytes
long, so the length check raises `ValueError`.  An exactly-64-byte valid
detached signature (`Signature.detached`) verifies when signer and message
match and raises `BadSignatureError` otherwise; any other byte string
fails the length check or the signature check.  On success the call
returns the (non-empty, hence truthy) message: `ok true`. -/
def vkVerify (pk : String) (msg : FlatObj) (sig : Option Signature) : Except String Bool :=
  match sig with
  | none => .error "BadSignatureError"
  | some (.detached signer m) =>
      if signer == pk && m == msg then .ok true else .error "BadSignatureError"
  | some (.hostSig _ _) => .error "ValueError: The signature must be exactly 64 bytes long"
  | some (.nameSig _ _) => .error "ValueError: The signature must be exactly 64 bytes long"
  | some (.raw _) => .error "BadSignatureError"

/-- The `for pubkey in pubkeys` loop of `Hostname.verify_signature`: a raise
propagates, a truthy result returns `True`, a falsy result tries the next
key, and an exhausted loop returns `False`. -/
def verifySigLoop (msg : FlatObj) (sig : Option Signature) : List String → Except String Bool
  | [] => .ok false
  | pk :: rest =>
      match vkVerify pk msg sig with
      | .error e => .error e
      | .ok true => .ok true
      | .ok false => verifySigLoop msg sig rest

/-- `Hostname.verify_signature(pubkeys)` (`data.py` lines 48-52). -/
def Hostname.verify_signature (hn : Hostname) (pubkeys : List String) : Except String Bool :=
  verifySigLoop hn.data_to_sign hn.signature pubkeys

/-- Pointwise combination underlying the merge loops: entries present on
both sides are combined with `f`, one-sided entries are kept. -/
def mergeOpt {α : Type} (f : α → α → α) : Option α → Option α → Option α
  | some x, some y => some (f x y)
  | some x, none => some x
  | none, some y => some y
  | none, none => none

/-- The settings half of `Network.merge` as a function on `Settings`:
adopt the five settings fields when `other` is strictly newer — but keep
the own `last_update`, which the source never copies. -/
def smerge (a b : Settings) : Settings :=
  if b.last_update > a.last_update then
    { a with
      tld := b.tld
      public := b.public
      host_signing_keys := b.host_signing_keys
      banned_keys := b.banned_keys
      hostname_overrides := b.hostname_overrides }
  else a

/-- Well-formedness of an update document: its maps have unique keys, as
Python dicts guarantee. -/
def WFdm (u : DataMesher) : Prop :=
  (u.networks.map Prod.fst).Nodup ∧ ∀ p ∈ u.networks, (p.2.hosts.map Prod.fst).Nodup

instance : DecidablePred WFdm := fun u => by
  unfold WFdm; infer_instance

/-- The last-writer-wins characterisation of a folded host slot over a list
of per-update lookups: `none` exactly when no update carried the slot,
otherwise one of the carried records, with maximal `last_seen`. -/
def IsLWW (l : List (Option Host)) : Option Host → Prop
  | none => ∀ x : Host, some x ∉ l
  | some m => some m ∈ l ∧ ∀ x : Host, some x ∈ l → x.last_seen ≤ m.last_seen

/-- C1 counterexample inputs: two updates for host `K` in network `n` with
equal `last_seen` and different ports, both validly signed, identical
settings. -/
def c1host1 : Host := Host.update_signature ⟨"42::1", 1, "K", 0, [], .raw "x"⟩ "K" 10

/-- Second C1 update's host: same key and `last_seen`, different ip/port. -/
def c1host2 : Host := Host.update_signature ⟨"42::2", 2, "K", 0, [], .raw "x"⟩ "K" 10

/-- Network document of the first C1 update. -/
def c1net1 : Network := ⟨5, "t", true, [], [], [], [("K", c1host1)]⟩

/-- Network document of the second C1 update. -/
def c1net2 : Network := ⟨5, "t", true, [], [], [], [("K", c1host2)]⟩

/-- First C1 update document. -/
def c1u1 : DataMesher := ⟨[("n", c1net1)]⟩

/-- Second C1 update document. -/
def c1u2 : DataMesher := ⟨[("n", c1net2)]⟩

/-- C1 witness inputs: same shape but distinct `last_seen` values. -/
def c1whostA : Host := Host.update_signature ⟨"42::1", 1, "A", 0, [], .raw "x"⟩ "A" 10

/-- Second witness host, strictly newer. -/
def c1whostB : Host := Host.update_signature ⟨"42::2", 2, "A", 0, [], .raw "x"⟩ "A" 20

/-- First witness update. -/
def c1wu1 : DataMesher := ⟨[("n", ⟨5, "t", true, [], [], [], [("A", c1whostA)]⟩)]⟩

/-- Second witness update. -/
def c1wu2 : DataMesher := ⟨[("n", ⟨5, "t", true, [], [], [], [("A", c1whostB)]⟩)]⟩

/-- C2 inputs: a validly signed host whose key `B` is banned on the
receiving side. -/
def c2hostB : Host := Host.update_signature ⟨"42::9", 1, "B", 0, [], .raw "x"⟩ "B" 3

/-- Receiving network: `B` is banned, no hosts yet. -/
def c2netS : Network := ⟨10, "t", true, [], ["B"], [], []⟩

/-- Offered network carrying the banned host. -/
def c2netO : Network := ⟨10, "t", true, [], [], [], [("B", c2hostB)]⟩

/-- C3 inputs: the incoming host is newer and carries the *later* signed
claim for `w`. -/
def c3self : Host := ⟨"42::1", 7331, "K", 1, [("w", ⟨"w", some 1, some (.raw "sigA")⟩)], .raw "y"⟩

/-- Incoming host for C3, validly signed, `last_seen = 2`, claim signed at 5. -/
def c3other : Host :=
  Host.update_signature ⟨"42::1", 7331, "K", 0, [("w", ⟨"w", some 5, some (.raw "sigB")⟩)], .raw "x"⟩ "K" 2

/-- C4 witness inputs: `other` is not newer than `self`. -/
def c4s : Host := ⟨"42::1", 7331, "K", 9, [], .raw "y"⟩

/-- The stale `other` host for the C4 witness. -/
def c4o : Host := ⟨"42::3", 7332, "K", 4, [], .raw "z"⟩

/-- C5 inputs: a signed hostname inside a host. -/
def c5hn : Hostname := ⟨"w", some 7, some (.raw "sigW")⟩

/-- Host carrying the signed hostname for C5. -/
def c5host : Host := ⟨"42::2", 80, "P", 9, [("w", c5hn)], .raw "z"⟩

/-- C6 inputs: a host whose signature does not verify. -/
def c6bad : Host := ⟨"42::7", 2, "C", 50, [], .raw "garbage"⟩

/-- Receiving network for C6 (empty). -/
def c6netS : Network := ⟨0, "t", true, [], [], [], []⟩

/-- Offered network for C6 carrying the bad host. -/
def c6netO : Network := ⟨0, "t", true, [], [], [], [("C", c6bad)]⟩

/-- C6 witness inputs: another unverifiable host. -/
def c6wbad : Host := ⟨"42::8", 3, "D", 60, [], .raw "junk"⟩

/-- Offered network for the C6 witness. -/
def c6wnetO : Network := ⟨0, "t", true, [], [], [], [("D", c6wbad)]⟩

/-- C7 inputs: a freshly signed host with one unsigned hostname. -/
def c7base : Host := ⟨"42::1", 7331, "K", 0, [("a", ⟨"a", none, none⟩)], .raw "x"⟩

/-- The host after `update_signature` for C7. -/
def c7host : Host := Host.update_signature c7base "K" 30

/-- C7 mutation: set `signed_at` on the unsigned hostname (no signature),
changing the map but not its canonical encoding. -/
def c7mut : Host := { c7host with hostnames := [("a", ⟨"a", some 5, none⟩)] }

/-- C7 witness base host. -/
def c7wbase : Host := ⟨"2001:db8::1", 80, "W", 0, [], .raw "x"⟩

/-- C8 input: prior `last_seen` is 10, ahead of the clock. -/
def c8host : Host := ⟨"42::1", 7331, "K", 10, [], .raw "x"⟩

/-- C10 inputs: the canonical bytes of the signed hostname below. -/
def c10msg : FlatObj := [("hostname", .str "w"), ("signed_at", .int 5)]

/-- Hostname whose stored signature is a valid 64-byte detached signature by
`K1` over its canonical bytes (such bytes can enter via the state file). -/
def c10hn : Hostname := ⟨"w", some 5, some (.detached "K1" c10msg)⟩

/-- C10 witness hostname: a signature that verifies under no key. -/
def c10whn : Hostname := ⟨"v", none, some (.raw "blob")⟩

/-- Unfolded canonical form of a host: the four keys in sorted order. -/
theorem Host.data_to_sign_eq (h : Host) :
    h.data_to_sign =
      [("hostnames", .obj (hostnamesEnc h.hostnames)),
       ("ip", .prim (.str h.ip)),
       ("last_seen", .prim (.int h.last_seen)),
       ("port", .prim (.int h.port))] := rfl

/-- `Host.merge` in closed form: adopt `other` wholesale exactly when it is
strictly newer and verifies. -/
theorem Host.merge_eq (s o : Host) :
    Host.merge s o = if o.last_seen > s.last_seen ∧ o.verify = true then o else s := by
  by_cases h1 : o.last_seen > s.last_seen
  · cases hv : o.verify
    · simp [Host.merge, h1, hv]
    · simp only [Host.merge, h1, hv, if_true, and_true]
  · simp [Host.merge, h1]

/-- C3: the claimed per-hostname earliest-signer-wins rule does not exist in
`Host.merge`: with both sides signed for `w` (`signed_at` 1 on `self`, 5 on
`other`) and `other` newer and valid, the merged host retains the claim with
the *larger* `signed_at`, not the smaller one. -/
theorem c3_counterexample :
    (alLookup "w" c3self.hostnames).map Hostname.signed_at = some (some 1) ∧
    (alLookup "w" c3other.hostnames).map Hostname.signed_at = some (some 5) ∧
    (1 : Int) < 5 ∧
    c3other.last_seen > c3self.last_seen ∧
    Host.verify c3other = true ∧
    (alLookup "w" (Host.merge c3self c3other).hostnames).map Hostname.signed_at =
      some (some 5) := by decide

/-- C3 amended: `Host.merge` never compares individual hostname claims; the
whole hostnames map of the strictly newer, verifying side replaces the other,
and otherwise the own map is kept unchanged (`signed_at` and `signature` of
the claims play no role). -/
theorem c3_amended (s o : Host) :
    (Host.merge s o).hostnames =
      if o.last_seen > s.last_seen ∧ o.verify = true then o.hostnames else s.hostnames := by
  rw [Host.merge_eq]
  split_ifs <;> rfl

/-- C4: for hosts with the same public key, `Host.merge` is a no-op when
`other` is not strictly newer, is a no-op when `other` is newer but fails
verification (the source logs in the compare-false case; a cryptographically
invalid blob raises instead, in both cases leaving `self` unchanged), and
never decreases `last_seen`. -/
theorem c4_host_merge (s o : Host) (_hpk : o.public_key = s.public_key) :
    (o.last_seen ≤ s.last_seen → Host.merge s o = s) ∧
    (o.last_seen > s.last_seen → o.verify = false → Host.merge s o = s) ∧
    s.last_seen ≤ (Host.merge s o).last_seen := by
  refine ⟨?_, ?_, ?_⟩
  · intro hle
    rw [Host.merge_eq, if_neg]
    rintro ⟨hgt, _⟩
    omega
  · intro _ hv
    rw [Host.merge_eq, if_neg]
    rintro ⟨_, hv'⟩
    rw [hv] at hv'
    exact absurd hv' (by simp)
  · rw [Host.merge_eq]
    split_ifs with hc
    · exact le_of_lt hc.1
    · exact le_refl _

/-- C4 witness: a stale `other` with the same public key is ignored and
`last_seen` does not regress. -/
theorem c4_witness :
    Host.merge c4s c4o = c4s ∧ c4s.last_seen ≤ (Host.merge c4s c4o).last_seen :=
  ⟨(c4_host_merge c4s c4o rfl).1 (by decide), (c4_host_merge c4s c4o rfl).2.2⟩

/-- C8: `Host.update_signature` has no monotonic guarantee: with prior
`last_seen = 10` and clock value 5 the new `last_seen` is 5 — not the claimed
prior value plus one — and strictly decreases. -/
theorem c8_counterexample :
    (Host.update_signature c8host "K" 5).last_seen = 5 ∧
    (5 : Int) ≤ c8host.last_seen ∧
    (Host.update_signature c8host "K" 5).last_seen ≠ c8host.last_seen + 1 ∧
    (Host.update_signature c8host "K" 5).last_seen < c8host.last_seen := by decide

/-- C8 amended: `Host.update_signature` sets `last_seen` to the clock value
unconditionally; successive calls increase it only when the clock advances. -/
theorem c8_amended (h : Host) (k : SigningKey) (now : Int) :
    (Host.update_signature h k now).last_seen = now := rfl

/-- C9 amended: the constructor yields an empty networks mapping when the
state file is missing or its contents are not valid JSON (the only error the
source catches). -/
theorem c9_amended :
    DataMesher.initNetworks .missing [] = .ok [] ∧
    DataMesher.initNetworks .invalid [] = .ok [] ∧
    load (.obj []) = .ok [] := ⟨rfl, rfl, rfl⟩

/-- C9: a state file that is valid JSON but not a well-formed transport
document — here `{"n": {}}` — raises (`KeyError: 'hosts'`) instead of
yielding an empty mesh: only `json.JSONDecodeError` is caught. -/
theorem c9_counterexample :
    DataMesher.initNetworks (.validJson (.obj [("n", .obj [])])) [] =
      .error "KeyError: hosts" := rfl

/-- Lookup misses a list none of whose keys is `k`. -/
theorem alLookup_eq_none {α : Type} {k : String} {l : List (String × α)}
    (h : k ∉ l.map Prod.fst) : alLookup k l = none := by
  induction l with
  | nil => rfl
  | cons p t ih =>
    obtain ⟨k', v⟩ := p
    simp only [List.map_cons, List.mem_cons, not_or] at h
    simp only [alLookup]
    rw [if_neg, ih h.2]
    simp only [beq_iff_eq]
    exact fun e => h.1 e.symm

/-- A successful lookup exhibits a member of the list. -/
theorem mem_of_alLookup {α : Type} {k : String} {v : α} :
    ∀ {l : List (String × α)}, alLookup k l = some v → (k, v) ∈ l := by
  intro l
  induction l with
  | nil => intro h; cases h
  | cons p t ih =>
    obtain ⟨k', v'⟩ := p
    simp only [alLookup]
    by_cases he : k' = k
    · subst he
      simp only [beq_self_eq_true, if_true]
      intro h
      cases h
      exact List.mem_cons_self _ _
    · rw [if_neg (by simp only [beq_iff_eq]; exact he)]
      intro h
      exact List.mem_cons_of_mem _ (ih h)

/-- Lookup of the head key. -/
theorem alLookup_cons_self {α : Type} (k : String) (v : α) (t : List (String × α)) :
    alLookup k ((k, v) :: t) = some v := by
  simp [alLookup]

/-- Lookup skips a head entry with a different key. -/
theorem alLookup_cons_ne {α : Type} {k' k : String} (h : ¬k' = k) (v : α)
    (t : List (String × α)) : alLookup k ((k', v) :: t) = alLookup k t := by
  simp only [alLookup]
  rw [if_neg (by simp only [beq_iff_eq]; exact h)]

/-- Update hits a head entry with the same key. -/
theorem alUpdate_cons_self {α : Type} (k : String) (v v' : α) (t : List (String × α)) :
    alUpdate k v ((k, v') :: t) = (k, v) :: t := by
  simp [alUpdate]

/-- Update skips a head entry with a different key. -/
theorem alUpdate_cons_ne {α : Type} {k' k0 : String} (h : ¬k' = k0) (v v' : α)
    (t : List (String × α)) :
    alUpdate k0 v ((k', v') :: t) = (k', v') :: alUpdate k0 v t := by
  simp only [alUpdate]
  rw [if_neg (by simp only [beq_iff_eq]; exact h)]

/-- Updating the present key `k` makes lookup return the new value. -/
theorem alLookup_alUpdate_self {α : Type} (k : String) (v : α) (l : List (String × α)) :
    alLookup k (alUpdate k v l) = if (alLookup k l).isSome then some v else none := by
  induction l with
  | nil => rfl
  | cons p t ih =>
    obtain ⟨k', v'⟩ := p
    by_cases he : k' = k
    · subst he
      rw [alUpdate_cons_self, alLookup_cons_self, alLookup_cons_self]
      rfl
    · rw [alUpdate_cons_ne he, alLookup_cons_ne he, alLookup_cons_ne he, ih]

/-- Updating key `k0` leaves lookups of other keys unchanged. -/
theorem alLookup_alUpdate_ne {α : Type} {k0 k : String} (h : ¬k0 = k) (v : α)
    (l : List (String × α)) : alLookup k (alUpdate k0 v l) = alLookup k l := by
  induction l with
  | nil => rfl
  | cons p t ih =>
    obtain ⟨k', v'⟩ := p
    by_cases he : k' = k0
    · subst he
      rw [alUpdate_cons_self, alLookup_cons_ne h, alLookup_cons_ne h]
    · rw [alUpdate_cons_ne he]
      by_cases hk : k' = k
      · subst hk
        rw [alLookup_cons_self, alLookup_cons_self]
      · rw [alLookup_cons_ne hk, alLookup_cons_ne hk, ih]

/-- A hit in the left part of an append wins. -/
theorem alLookup_append_left {α : Type} {k : String} {v : α} {l1 : List (String × α)}
    (l2 : List (String × α)) (h : alLookup k l1 = some v) :
    alLookup k (l1 ++ l2) = some v := by
  induction l1 with
  | nil => cases h
  | cons p t ih =>
    obtain ⟨k', v'⟩ := p
    simp only [alLookup, List.cons_append] at h ⊢
    by_cases he : k' = k
    · simpa [he] using h
    · rw [if_neg (by simp only [beq_iff_eq]; exact he)] at h ⊢
      exact ih h

/-- A miss in the left part of an append defers to the right part. -/
theorem alLookup_append_right {α : Type} {k : String} {l1 : List (String × α)}
    (l2 : List (String × α)) (h : alLookup k l1 = none) :
    alLookup k (l1 ++ l2) = alLookup k l2 := by
  induction l1 with
  | nil => rfl
  | cons p t ih =>
    obtain ⟨k', v'⟩ := p
    simp only [alLookup, List.cons_append] at h ⊢
    by_cases he : k' = k
    · simp [he] at h
    · rw [if_neg (by simp only [beq_iff_eq]; exact he)] at h ⊢
      exact ih h

/-- The merge-loop body on an absent key appends. -/
theorem mergeStep_absent {α : Type} (f : α → α → α) {k0 : String} {v0 : α}
    {s : List (String × α)} (hs : alLookup k0 s = none) :
    mergeStep f s (k0, v0) = s ++ [(k0, v0)] := by
  simp [mergeStep, hs]

/-- The merge-loop body on a present key combines in place. -/
theorem mergeStep_present {α : Type} (f : α → α → α) {k0 : String} {v0 x : α}
    {s : List (String × α)} (hs : alLookup k0 s = some x) :
    mergeStep f s (k0, v0) = alUpdate k0 (f x v0) s := by
  simp [mergeStep, hs]

/-- Pointwise description of the merge loop: for unique keys on the incoming
side, the result at each key is the `mergeOpt`-combination of the two
sides. -/
theorem alLookup_mergeAL {α : Type} (f : α → α → α) (o : List (String × α)) :
    ∀ (s : List (String × α)), (o.map Prod.fst).Nodup → ∀ k,
      alLookup k (mergeAL f s o) = mergeOpt f (alLookup k s) (alLookup k o) := by
  induction o with
  | nil =>
    intro s _ k
    show alLookup k s = mergeOpt f (alLookup k s) none
    cases alLookup k s <;> rfl
  | cons p t ih =>
    intro s hnd k
    obtain ⟨k0, v0⟩ := p
    simp only [List.map_cons, List.nodup_cons] at hnd
    have hmain : mergeAL f s ((k0, v0) :: t) = mergeAL f (mergeStep f s (k0, v0)) t := rfl
    rw [hmain, ih _ hnd.2 k]
    by_cases hk : k = k0
    · subst hk
      rw [alLookup_eq_none hnd.1]
      have hhead : alLookup k ((k, v0) :: t) = some v0 := by simp [alLookup]
      rw [hhead]
      cases hs : alLookup k s with
      | none =>
        rw [mergeStep_absent f hs, alLookup_append_right _ hs]
        simp [alLookup, mergeOpt]
      | some x =>
        rw [mergeStep_present f hs, alLookup_alUpdate_self]
        simp [hs, mergeOpt]
    · have htail : alLookup k ((k0, v0) :: t) = alLookup k t := by
        simp only [alLookup]
        rw [if_neg (by simp only [beq_iff_eq]; exact fun e => hk e.symm)]
      rw [htail]
      have hstepk : alLookup k (mergeStep f s (k0, v0)) = alLookup k s := by
        cases hs : alLookup k0 s with
        | none =>
          rw [mergeStep_absent f hs]
          cases hks : alLookup k s with
          | none =>
            rw [alLookup_append_right _ hks]
            simp only [alLookup]
            rw [if_neg (by simp only [beq_iff_eq]; exact fun e => hk e.symm)]
          | some y => exact alLookup_append_left _ hks
        | some x =>
          rw [mergeStep_present f hs]
          exact alLookup_alUpdate_ne (fun e => hk e.symm) _ _
      rw [hstepk]

/-- The hosts half of `Network.merge` is the merge loop on the two host
maps, independent of the settings branch. -/
theorem Network.merge_hosts (s o : Network) :
    (Network.merge s o).hosts = mergeAL Host.merge s.hosts o.hosts := by
  unfold Network.merge
  by_cases h : o.last_update > s.last_update <;> simp [h]

/-- The settings half of `Network.merge` is `smerge` (which keeps the own
`last_update`). -/
theorem Network.merge_settings (s o : Network) :
    settingsOf (Network.merge s o) = smerge (settingsOf s) (settingsOf o) := by
  unfold Network.merge smerge
  by_cases h : o.last_update > s.last_update <;> simp [settingsOf, h]

/-- C2: `Network.merge` does not honour `banned_keys`: the receiving network
bans key `B`, yet the offered host with that key is present (unchanged) in
the merged host map. -/
theorem c2_counterexample :
    "B" ∈ (Network.merge c2netS c2netO).banned_keys ∧
    alLookup "B" (Network.merge c2netS c2netO).hosts = some c2hostB ∧
    Host.verify c2hostB = true := by decide

/-- C2 amended: the merged host map is computed without consulting
`banned_keys` at all — changing the banned list changes nothing in the host
result — and a host offered under a key not yet present is inserted
unconditionally, banned or not. -/
theorem c2_amended (s o : Network) (bk : List String)
    (hnd : (o.hosts.map Prod.fst).Nodup) :
    (Network.merge { s with banned_keys := bk } o).hosts = (Network.merge s o).hosts ∧
    ∀ k h, alLookup k s.hosts = none → alLookup k o.hosts = some h →
      alLookup k (Network.merge s o).hosts = some h := by
  constructor
  · rw [Network.merge_hosts, Network.merge_hosts]
  · intro k h hks hko
    rw [Network.merge_hosts, alLookup_mergeAL Host.merge o.hosts s.hosts hnd k, hks, hko]
    rfl

/-- C2 witness: the banned list of the receiver is irrelevant to the merged
hosts, and the banned host is inserted. -/
theorem c2_witness :
    (Network.merge { c2netS with banned_keys := [] } c2netO).hosts =
      (Network.merge c2netS c2netO).hosts ∧
    alLookup "B" (Network.merge c2netS c2netO).hosts = some c2hostB :=
  ⟨(c2_amended c2netS c2netO [] (by decide)).1,
   (c2_amended c2netS c2netO [] (by decide)).2 "B" c2hostB (by decide) (by decide)⟩

/-- C6: a host whose signature does not verify is inserted by
`Network.merge` anyway — the verification before insertion claimed by the
spec is commented out in the source. -/
theorem c6_counterexample :
    Host.verify c6bad = false ∧
    alLookup "C" (Network.merge c6netS c6netO).hosts = some c6bad := by decide

/-- C6 amended: a host offered under a key not present on the receiving side
is inserted as-is, with no signature verification (only already-present
hosts are guarded, inside `Host.merge`). -/
theorem c6_amended (s o : Network) (hnd : (o.hosts.map Prod.fst).Nodup)
    (k : String) (h : Host) (habs : alLookup k s.hosts = none)
    (hin : alLookup k o.hosts = some h) :
    alLookup k (Network.merge s o).hosts = some h := by
  rw [Network.merge_hosts, alLookup_mergeAL Host.merge o.hosts s.hosts hnd k, habs, hin]
  rfl

/-- C6 witness: an unverifiable host is inserted. -/
theorem c6_witness :
    alLookup "D" (Network.merge c6netS c6wnetO).hosts = some c6wbad ∧
    Host.verify c6wbad = false :=
  ⟨c6_amended c6netS c6wnetO (by decide) "D" c6wbad (by decide) (by decide), by decide⟩

/-- Canonical form of a signed hostname: name and `signed_at` only. -/
theorem Hostname.data_to_sign_signed (n : String) (t : Int) (sg : Signature)
    (hs : sigPresent (some sg) = true) :
    Hostname.data_to_sign ⟨n, some t, some sg⟩ =
      [("hostname", .str n), ("signed_at", .int t)] := by
  simp only [Hostname.data_to_sign, hs]
  rfl

/-- Canonical form of an unsigned hostname: the name only. -/
theorem Hostname.data_to_sign_unsigned (hn : Hostname)
    (hu : hn.signed_at = none ∨ sigPresent hn.signature = false) :
    Hostname.data_to_sign hn = [("hostname", .str hn.hostname)] := by
  obtain ⟨n, sa, sg⟩ := hn
  rcases hu with hu | hu
  · simp only at hu
    subst hu
    rfl
  · simp only at hu
    cases sa with
    | none => rfl
    | some t =>
      simp only [Hostname.data_to_sign, hu]
      rfl

/-- Transport form of a signed hostname: name, signature, `signed_at`, in
sorted key order. -/
theorem Hostname.json_signed (n : String) (t : Int) (sg : Signature)
    (hs : sigPresent (some sg) = true) :
    Hostname.json ⟨n, some t, some sg⟩ =
      [("hostname", .str n), ("signature", .str sg.decode), ("signed_at", .int t)] := by
  simp only [Hostname.json, Hostname.data_to_sign, hs]
  rfl

/-- Transport form of an unsigned hostname: the name only. -/
theorem Hostname.json_unsigned (hn : Hostname)
    (hu : hn.signed_at = none ∨ sigPresent hn.signature = false) :
    Hostname.json hn = [("hostname", .str hn.hostname)] := by
  obtain ⟨n, sa, sg⟩ := hn
  rcases hu with hu | hu
  · simp only at hu
    subst hu
    cases sg <;> rfl
  · simp only at hu
    cases sa with
    | none => cases sg <;> rfl
    | some t =>
      cases sg with
      | none => rfl
      | some s' =>
        simp only [Hostname.json, Hostname.data_to_sign, hu]
        rfl

/-- C5: the canonical host encoding *does* contain the signatures of signed
hostnames: the entry for `w` inside `Host.data_to_sign` carries a
`"signature"` key (the claim said it must not). -/
theorem c5_counterexample :
    alLookup "hostnames" (Host.data_to_sign c5host) =
      some (.obj [("w",
        [("hostname", .str "w"), ("signature", .str "sigW"), ("signed_at", .int 7)])]) ∧
    ("signature" ∈ (Hostname.json c5hn).map Prod.fst) := by decide

/-- C5 amended: the canonical host encoding omits the host's own signature
(top-level keys are exactly `hostnames, ip, last_seen, port`), and renders
each hostname by `Hostname.__json__`: a signed hostname contributes its
name, its `signed_at` *and* its `signature`; an unsigned one only its
name. -/
theorem c5_amended (h : Host) (hn : Hostname) :
    (Host.data_to_sign h).map Prod.fst = ["hostnames", "ip", "last_seen", "port"] ∧
    alLookup "hostnames" (Host.data_to_sign h) = some (.obj (hostnamesEnc h.hostnames)) ∧
    (∀ t sg, hn.signed_at = some t → hn.signature = some sg → sigPresent (some sg) = true →
      Hostname.json hn =
        [("hostname", .str hn.hostname), ("signature", .str sg.decode), ("signed_at", .int t)]) ∧
    (hn.signed_at = none ∨ sigPresent hn.signature = false →
      Hostname.json hn = [("hostname", .str hn.hostname)]) := by
  refine ⟨rfl, rfl, ?_, Hostname.json_unsigned hn⟩
  intro t sg hsa hsg hp
  obtain ⟨n, sa, sg'⟩ := hn
  simp only at hsa hsg
  subst hsa
  subst hsg
  exact Hostname.json_signed n t sg hp

/-- C5 witness: concrete key lists for a host and a signed hostname. -/
theorem c5_witness :
    (Host.data_to_sign c5host).map Prod.fst = ["hostnames", "ip", "last_seen", "port"] ∧
    Hostname.json c5hn =
      [("hostname", .str c5hn.hostname), ("signature", .str (Signature.raw "sigW").decode),
       ("signed_at", .int 7)] :=
  ⟨(c5_amended c5host c5hn).1,
   (c5_amended c5host c5hn).2.2.1 7 (.raw "sigW") rfl rfl (by decide)⟩

/-- `Host.verify` unfolded at a `hostSig` blob. -/
theorem Host.verify_hostSig (h : Host) (signer : String) (msg : HostObj)
    (hsig : h.signature = .hostSig signer msg) :
    Host.verify h = ((signer == h.public_key) && (msg == h.data_to_sign)) := by
  unfold Host.verify
  rw [hsig]

/-- C7: mutating the hostnames map after signing does *not* always falsify
`Host.verify`: setting `signed_at` on a signature-less hostname changes the
map but not its canonical encoding (which drops `signed_at` for unsigned
entries), so verification still succeeds. -/
theorem c7_counterexample :
    Host.verify c7host = true ∧
    c7mut.hostnames ≠ c7host.hostnames ∧
    Host.verify c7mut = true := by decide

/-- C7 amended: after `update_signature` with the matching key, `verify`
holds; changing `ip`, `port` or `last_seen` to a different value falsifies
it, and changing the hostnames map falsifies it exactly when the change is
visible in the map's canonical encoding (changes to `signed_at`/`signature`
of an unsigned hostname are invisible there). -/
theorem c7_amended (h : Host) (k : SigningKey) (t : Int)
    (hk : SigningKey.verify_key k = h.public_key) :
    Host.verify (Host.update_signature h k t) = true ∧
    (∀ x, ¬x = h.ip → Host.verify { Host.update_signature h k t with ip := x } = false) ∧
    (∀ p, ¬p = h.port → Host.verify { Host.update_signature h k t with port := p } = false) ∧
    (∀ t2, ¬t2 = t → Host.verify { Host.update_signature h k t with last_seen := t2 } = false) ∧
    (∀ hs, ¬hostnamesEnc hs = hostnamesEnc h.hostnames →
      Host.verify { Host.update_signature h k t with hostnames := hs } = false) := by
  have hk' : k = h.public_key := hk
  subst hk'
  refine ⟨?_, ?_, ?_, ?_, ?_⟩
  · have hsig : (Host.update_signature h h.public_key t).signature
        = .hostSig (SigningKey.verify_key h.public_key)
            (Host.data_to_sign { h with last_seen := t }) := rfl
    rw [Host.verify_hostSig _ _ _ hsig]
    simp [SigningKey.verify_key, Host.update_signature, Host.data_to_sign_eq]
  · intro x hx
    have hsig : ({ Host.update_signature h h.public_key t with ip := x }).signature
        = .hostSig (SigningKey.verify_key h.public_key)
            (Host.data_to_sign { h with last_seen := t }) := rfl
    rw [Host.verify_hostSig _ _ _ hsig]
    have hne : (Host.data_to_sign { h with last_seen := t }
        == Host.data_to_sign { Host.update_signature h h.public_key t with ip := x }) = false := by
      rw [beq_eq_false_iff_ne]
      intro he
      rw [Host.data_to_sign_eq, Host.data_to_sign_eq] at he
      simp [Host.update_signature] at he
      exact hx he.symm
    simp [hne]
  · intro p hp
    have hsig : ({ Host.update_signature h h.public_key t with port := p }).signature
        = .hostSig (SigningKey.verify_key h.public_key)
            (Host.data_to_sign { h with last_seen := t }) := rfl
    rw [Host.verify_hostSig _ _ _ hsig]
    have hne : (Host.data_to_sign { h with last_seen := t }
        == Host.data_to_sign { Host.update_signature h h.public_key t with port := p }) = false := by
      rw [beq_eq_false_iff_ne]
      intro he
      rw [Host.data_to_sign_eq, Host.data_to_sign_eq] at he
      simp [Host.update_signature] at he
      exact hp he.symm
    simp [hne]
  · intro t2 ht2
    have hsig : ({ Host.update_signature h h.public_key t with last_seen := t2 }).signature
        = .hostSig (SigningKey.verify_key h.public_key)
            (Host.data_to_sign { h with last_seen := t }) := rfl
    rw [Host.verify_hostSig _ _ _ hsig]
    have hne : (Host.data_to_sign { h with last_seen := t }
        == Host.data_to_sign { Host.update_signature h h.public_key t with last_seen := t2 }) = false := by
      rw [beq_eq_false_iff_ne]
      intro he
      rw [Host.data_to_sign_eq, Host.data_to_sign_eq] at he
      simp [Host.update_signature] at he
      exact ht2 he.symm
    simp [hne]
  · intro hs hhs
    have hsig : ({ Host.update_signature h h.public_key t with hostnames := hs }).signature
        = .hostSig (SigningKey.verify_key h.public_key)
            (Host.data_to_sign { h with last_seen := t }) := rfl
    rw [Host.verify_hostSig _ _ _ hsig]
    have hne : (Host.data_to_sign { h with last_seen := t }
        == Host.data_to_sign { Host.update_signature h h.public_key t with hostnames := hs }) = false := by
      rw [beq_eq_false_iff_ne]
      intro he
      rw [Host.data_to_sign_eq, Host.data_to_sign_eq] at he
      simp [Host.update_signature] at he
      exact hhs he.symm
    simp [hne]

/-- C7 witness: round-trip verification succeeds at a concrete host and a
concrete mutation of `ip` falsifies it. -/
theorem c7_witness :
    Host.verify (Host.update_signature c7wbase "W" 5) = true ∧
    Host.verify { Host.update_signature c7wbase "W" 5 with ip := "::2" } = false :=
  ⟨(c7_amended c7wbase "W" 5 rfl).1,
   (c7_amended c7wbase "W" 5 rfl).2.1 "::2" (by decide)⟩

/-- pynacl's verify never returns a falsy value: it either raises or returns
the (non-empty) message. -/
theorem vkVerify_ne_ok_false (pk : String) (msg : FlatObj) (sig : Option Signature) :
    vkVerify pk msg sig ≠ .ok false := by
  cases sig with
  | none => simp [vkVerify]
  | some s =>
    cases s with
    | hostSig a b => simp [vkVerify]
    | nameSig a b => simp [vkVerify]
    | detached a b =>
      simp only [vkVerify]
      split <;> simp
    | raw s => simp [vkVerify]

/-- The key loop returns `False` exactly on the empty key list. -/
theorem verifySigLoop_ok_false_iff (msg : FlatObj) (sig : Option Signature)
    (pks : List String) : verifySigLoop msg sig pks = .ok false ↔ pks = [] := by
  cases pks with
  | nil => simp [verifySigLoop]
  | cons pk rest =>
    simp only [verifySigLoop]
    cases hv : vkVerify pk msg sig with
    | error e => simp
    | ok b =>
      cases b with
      | true => simp
      | false => exact absurd hv (vkVerify_ne_ok_false pk msg sig)

/-- C10: `verify_signature` does not raise merely because the list contains
a non-verifying key: with a stored 64-byte detached signature valid under
`K1`, the list `[K1, K2]` returns `True` even though `K2` alone raises. -/
theorem c10_counterexample :
    Hostname.verify_signature c10hn ["K1", "K2"] = .ok true ∧
    Hostname.verify_signature c10hn ["K2"] = .error "BadSignatureError" := ⟨rfl, rfl⟩

/-- C10 amended: `False` is returned exactly for the empty key list (no key
evaluation ever yields a falsy result, so the all-falsy case collapses to
the empty list); when the *first* key raises — in particular whenever
`signature` is `None` and the list is non-empty — the exception propagates
instead of a `False` return.  A verifying key earlier in the list
short-circuits to `True` before later keys are tried. -/
theorem c10_amended (hn : Hostname) (pks : List String) :
    (Hostname.verify_signature hn pks = .ok false ↔ pks = []) ∧
    (∀ pk rest e, pks = pk :: rest →
      vkVerify pk hn.data_to_sign hn.signature = .error e →
      Hostname.verify_signature hn pks = .error e) ∧
    (hn.signature = none → ∀ pk rest, pks = pk :: rest →
      Hostname.verify_signature hn pks = .error "BadSignatureError") := by
  refine ⟨verifySigLoop_ok_false_iff _ _ _, ?_, ?_⟩
  · intro pk rest e hpks hv
    subst hpks
    unfold Hostname.verify_signature verifySigLoop
    rw [hv]
  · intro hnone pk rest hpks
    subst hpks
    unfold Hostname.verify_signature
    rw [hnone]
    rfl

/-- C10 witness: the empty list returns `False`; a non-empty list whose
first key fails raises. -/
theorem c10_witness :
    Hostname.verify_signature c10whn [] = .ok false ∧
    Hostname.verify_signature c10whn ["K9"] = .error "BadSignatureError" :=
  ⟨((c10_amended c10whn []).1).mpr rfl,
   (c10_amended c10whn ["K9"]).2.1 "K9" [] "BadSignatureError" rfl rfl⟩

/-- Network lookup through `DataMesher.merge` is the pointwise combination
by `Network.merge`. -/
theorem lookupNet_merge (s o : DataMesher) (hnd : (o.networks.map Prod.fst).Nodup)
    (n : String) :
    lookupNet (DataMesher.merge s o) n =
      mergeOpt Network.merge (lookupNet s n) (lookupNet o n) := by
  unfold lookupNet DataMesher.merge
  exact alLookup_mergeAL Network.merge o.networks s.networks hnd n

/-- A successful host lookup exhibits the network and host entries. -/
theorem lookupHost_mem {u : DataMesher} {n k : String} {h : Host}
    (hl : lookupHost u n k = some h) :
    ∃ N, (n, N) ∈ u.networks ∧ (k, h) ∈ N.hosts := by
  unfold lookupHost lookupNet at hl
  cases hn : alLookup n u.networks with
  | none => rw [hn] at hl; cases hl
  | some N =>
    rw [hn] at hl
    exact ⟨N, mem_of_alLookup hn, mem_of_alLookup hl⟩

/-- A successful settings lookup exhibits the network entry. -/
theorem settingsAt_mem {u : DataMesher} {n : String} {x : Settings}
    (hl : settingsAt u n = some x) :
    ∃ N, (n, N) ∈ u.networks ∧ x = settingsOf N := by
  unfold settingsAt lookupNet at hl
  cases hn : alLookup n u.networks with
  | none => rw [hn] at hl; cases hl
  | some N =>
    rw [hn] at hl
    cases hl
    exact ⟨N, mem_of_alLookup hn, rfl⟩

/-- Host lookup through `DataMesher.merge` is the pointwise combination by
`Host.merge`. -/
theorem lookupHost_merge (s o : DataMesher) (hwf : WFdm o) (n k : String) :
    lookupHost (DataMesher.merge s o) n k =
      mergeOpt Host.merge (lookupHost s n k) (lookupHost o n k) := by
  unfold lookupHost
  rw [lookupNet_merge s o hwf.1 n]
  cases hs : lookupNet s n with
  | none =>
    cases ho : lookupNet o n with
    | none => rfl
    | some No =>
      show alLookup k No.hosts = mergeOpt Host.merge none (alLookup k No.hosts)
      cases alLookup k No.hosts <;> rfl
  | some Ns =>
    cases ho : lookupNet o n with
    | none =>
      show alLookup k Ns.hosts = mergeOpt Host.merge (alLookup k Ns.hosts) none
      cases alLookup k Ns.hosts <;> rfl
    | some No =>
      have hnod : (No.hosts.map Prod.fst).Nodup := by
        have hmem : (n, No) ∈ o.networks := mem_of_alLookup ho
        exact hwf.2 (n, No) hmem
      show alLookup k (Network.merge Ns No).hosts =
        mergeOpt Host.merge (alLookup k Ns.hosts) (alLookup k No.hosts)
      rw [Network.merge_hosts, alLookup_mergeAL Host.merge No.hosts Ns.hosts hnod k]

/-- Settings lookup through `DataMesher.merge` is the pointwise combination
by `smerge`. -/
theorem settingsAt_merge (s o : DataMesher) (hnd : (o.networks.map Prod.fst).Nodup)
    (n : String) :
    settingsAt (DataMesher.merge s o) n =
      mergeOpt smerge (settingsAt s n) (settingsAt o n) := by
  unfold settingsAt
  rw [lookupNet_merge s o hnd n]
  cases lookupNet s n <;> cases lookupNet o n <;>
    simp [mergeOpt, Network.merge_settings]

/-- Host lookup through a fold of merges is the fold of the pointwise
combinations. -/
theorem lookupHost_foldl (us : List DataMesher) :
    ∀ (acc : DataMesher), (∀ u ∈ us, WFdm u) → ∀ n k,
      lookupHost (us.foldl DataMesher.merge acc) n k =
        (us.map (fun u => lookupHost u n k)).foldl (mergeOpt Host.merge)
          (lookupHost acc n k) := by
  induction us with
  | nil => intro acc _ n k; rfl
  | cons u t ih =>
    intro acc hwf n k
    simp only [List.foldl_cons, List.map_cons]
    rw [ih (DataMesher.merge acc u) (fun v hv => hwf v (List.mem_cons_of_mem _ hv)) n k]
    rw [lookupHost_merge acc u (hwf u (List.mem_cons_self _ _)) n k]

/-- Host lookup after applying all updates from the empty mesh. -/
theorem lookupHost_applyAll (us : List DataMesher) (hwf : ∀ u ∈ us, WFdm u)
    (n k : String) :
    lookupHost (applyAll us) n k =
      (us.map (fun u => lookupHost u n k)).foldl (mergeOpt Host.merge) none := by
  unfold applyAll
  rw [lookupHost_foldl us emptyMesh hwf n k]
  rfl

/-- Settings lookup through a fold of merges is the fold of the pointwise
combinations. -/
theorem settingsAt_foldl (us : List DataMesher) :
    ∀ (acc : DataMesher), (∀ u ∈ us, (u.networks.map Prod.fst).Nodup) → ∀ n,
      settingsAt (us.foldl DataMesher.merge acc) n =
        (us.map (fun u => settingsAt u n)).foldl (mergeOpt smerge)
          (settingsAt acc n) := by
  induction us with
  | nil => intro acc _ n; rfl
  | cons u t ih =>
    intro acc hnd n
    simp only [List.foldl_cons, List.map_cons]
    rw [ih (DataMesher.merge acc u) (fun v hv => hnd v (List.mem_cons_of_mem _ hv)) n]
    rw [settingsAt_merge acc u (hnd u (List.mem_cons_self _ _)) n]

/-- Settings lookup after applying all updates from the empty mesh. -/
theorem settingsAt_applyAll (us : List DataMesher)
    (hnd : ∀ u ∈ us, (u.networks.map Prod.fst).Nodup) (n : String) :
    settingsAt (applyAll us) n =
      (us.map (fun u => settingsAt u n)).foldl (mergeOpt smerge) none := by
  unfold applyAll
  rw [settingsAt_foldl us emptyMesh hnd n]
  rfl

/-- Appending a `none` slot does not change the LWW characterisation. -/
theorem IsLWW_append_none (pre : List (Option Host)) (acc : Option Host)
    (h : IsLWW pre acc) : IsLWW (pre ++ [none]) acc := by
  cases acc with
  | none =>
    intro x hx
    rcases List.mem_append.mp hx with hx | hx
    · exact h x hx
    · simp at hx
  | some m =>
    obtain ⟨hm, hmax⟩ := h
    refine ⟨List.mem_append.mpr (Or.inl hm), ?_⟩
    intro x hx
    rcases List.mem_append.mp hx with hx | hx
    · exact hmax x hx
    · simp at hx

/-- Folding verified host slots with the merge combination yields a
last-writer-wins result. -/
theorem foldl_mergeOpt_host (l : List (Option Host)) :
    ∀ (acc : Option Host) (pre : List (Option Host)), IsLWW pre acc →
      (∀ h : Host, some h ∈ l → Host.verify h = true) →
      IsLWW (pre ++ l) (l.foldl (mergeOpt Host.merge) acc) := by
  induction l with
  | nil => intro acc pre hacc _; simpa using hacc
  | cons x t ih =>
    intro acc pre hacc hver
    cases x with
    | none =>
      have hstep : mergeOpt Host.merge acc none = acc := by cases acc <;> rfl
      simp only [List.foldl_cons, hstep]
      have := ih acc (pre ++ [none]) (IsLWW_append_none pre acc hacc)
        (fun h hh => hver h (List.mem_cons_of_mem _ hh))
      simpa [List.append_assoc] using this
    | some y =>
      have hy : Host.verify y = true := hver y (List.mem_cons_self _ _)
      cases acc with
      | none =>
        have hstep : mergeOpt Host.merge none (some y) = some y := rfl
        simp only [List.foldl_cons, hstep]
        have hnew : IsLWW (pre ++ [some y]) (some y) := by
          refine ⟨List.mem_append.mpr (Or.inr (by simp)), ?_⟩
          intro z hz
          rcases List.mem_append.mp hz with hz | hz
          · exact absurd hz (hacc z)
          · simp at hz
            subst hz
            exact le_refl _
        have := ih (some y) (pre ++ [some y]) hnew
          (fun h hh => hver h (List.mem_cons_of_mem _ hh))
        simpa [List.append_assoc] using this
      | some m =>
        obtain ⟨hmem, hmax⟩ := hacc
        have hme : Host.merge m y = if y.last_seen > m.last_seen then y else m := by
          rw [Host.merge_eq]
          simp [hy]
        have hstep : mergeOpt Host.merge (some m) (some y) = some (Host.merge m y) := rfl
        simp only [List.foldl_cons, hstep]
        have hnew : IsLWW (pre ++ [some y]) (some (Host.merge m y)) := by
          rw [hme]
          split_ifs with hgt
          · refine ⟨List.mem_append.mpr (Or.inr (by simp)), ?_⟩
            intro z hz
            rcases List.mem_append.mp hz with hz | hz
            · exact le_trans (hmax z hz) (le_of_lt hgt)
            · simp at hz
              subst hz
              exact le_refl _
          · refine ⟨List.mem_append.mpr (Or.inl hmem), ?_⟩
            intro z hz
            rcases List.mem_append.mp hz with hz | hz
            · exact hmax z hz
            · simp at hz
              subst hz
              omega
        have := ih (some (Host.merge m y)) (pre ++ [some y]) hnew
          (fun h hh => hver h (List.mem_cons_of_mem _ hh))
        simpa [List.append_assoc] using this

/-- Two LWW results over slot lists with the same carried records agree,
provided records with equal `last_seen` are identical. -/
theorem IsLWW_unique (l1 l2 : List (Option Host))
    (hmem : ∀ x : Host, some x ∈ l1 ↔ some x ∈ l2)
    (hties : ∀ h1 : Host, some h1 ∈ l1 → ∀ h2 : Host, some h2 ∈ l1 →
      h1.last_seen = h2.last_seen → h1 = h2)
    {r1 r2 : Option Host} (h1 : IsLWW l1 r1) (h2 : IsLWW l2 r2) : r1 = r2 := by
  cases r1 with
  | none =>
    cases r2 with
    | none => rfl
    | some m2 => exact absurd ((hmem m2).mpr h2.1) (h1 m2)
  | some m1 =>
    cases r2 with
    | none => exact absurd ((hmem m1).mp h1.1) (h2 m1)
    | some m2 =>
      obtain ⟨hm1, hmax1⟩ := h1
      obtain ⟨hm2, hmax2⟩ := h2
      have hm2' : some m2 ∈ l1 := (hmem m2).mpr hm2
      have hle1 : m1.last_seen ≤ m2.last_seen := hmax2 m1 ((hmem m1).mp hm1)
      have hle2 : m2.last_seen ≤ m1.last_seen := hmax1 m2 hm2'
      rw [hties m1 hm1 m2 hm2' (le_antisymm hle1 hle2)]

/-- `smerge` of two equal settings documents is a no-op. -/
theorem smerge_self (d : Settings) : smerge d d = d := by
  simp [smerge]

/-- Folding slots none of which carries a value stays `none`. -/
theorem foldl_mergeOpt_none {α : Type} (f : α → α → α) (l : List (Option α))
    (hnone : ∀ x : α, some x ∉ l) : l.foldl (mergeOpt f) none = none := by
  induction l with
  | nil => rfl
  | cons x t ih =>
    cases x with
    | none => exact ih (fun x hx => hnone x (List.mem_cons_of_mem _ hx))
    | some y => exact absurd (List.mem_cons_self _ _) (hnone y)

/-- Folding settings slots that all carry the same document yields that
document as soon as one slot carries it. -/
theorem foldl_smerge_eq_some (l : List (Option Settings)) (d : Settings)
    (hid : ∀ x : Settings, some x ∈ l → x = d) :
    ∀ acc : Option Settings,
      ((acc = none ∧ ∃ x : Settings, some x ∈ l) ∨ acc = some d) →
      l.foldl (mergeOpt smerge) acc = some d := by
  induction l with
  | nil =>
    rintro acc (⟨rfl, ⟨x, hx⟩⟩ | rfl)
    · cases hx
    · rfl
  | cons x t ih =>
    have hidt : ∀ y : Settings, some y ∈ t → y = d :=
      fun y hy => hid y (List.mem_cons_of_mem _ hy)
    rintro acc (⟨rfl, ⟨z, hz⟩⟩ | rfl)
    · cases x with
      | none =>
        have hzt : some z ∈ t := by
          rcases List.mem_cons.mp hz with hz | hz
          · cases hz
          · exact hz
        exact ih hidt none (Or.inl ⟨rfl, z, hzt⟩)
      | some y =>
        have hy : y = d := hid y (List.mem_cons_self _ _)
        subst hy
        exact ih hidt (some y) (Or.inr rfl)
    · cases x with
      | none => exact ih hidt (some d) (Or.inr rfl)
      | some y =>
        have hy : y = d := hid y (List.mem_cons_self _ _)
        subst hy
        have hstep : mergeOpt smerge (some y) (some y) = some y := by
          show some (smerge y y) = some y
          rw [smerge_self]
        simp only [List.foldl_cons, hstep]
        exact ih hidt (some y) (Or.inr rfl)

/-- C1: merge from the empty mesh is *not* order-independent when two
updates for the same host carry equal `last_seen`: with equal timestamps
and different content (here: different ip/port), whichever update is
applied first wins — `Host.merge` uses a strict comparison and no
tie-breaker exists in the code. -/
theorem c1_counterexample :
    lookupHost (applyAll [c1u1, c1u2]) "n" "K" ≠
      lookupHost (applyAll [c1u2, c1u1]) "n" "K" ∧
    (lookupHost c1u1 "n" "K").map Host.last_seen =
      (lookupHost c1u2 "n" "K").map Host.last_seen ∧
    Host.verify c1host1 = true ∧ Host.verify c1host2 = true := by decide

/-- C1 amended: applying a fixed set of update documents from the empty mesh
is order-independent provided (a) every carried host record verifies,
(b) any two records for the same network and host key with equal `last_seen`
are identical (no true ties), and (c) any two updates sharing a network name
carry identical settings documents (`last_update` included — necessary
because `Network.merge` adopts the settings fields without copying
`last_update`, so even distinct `last_update` values diverge).  Equality of
results is Python dict equality: same networks, same settings, pointwise the
same hosts. -/
theorem c1_amended (us1 us2 : List DataMesher)
    (hperm : us1.Perm us2)
    (hwf : ∀ u ∈ us1, WFdm u)
    (hver : ∀ u ∈ us1, ∀ p ∈ u.networks, ∀ q ∈ p.2.hosts, Host.verify q.2 = true)
    (hties : ∀ u ∈ us1, ∀ u' ∈ us1, ∀ p ∈ u.networks, ∀ p' ∈ u'.networks, p.1 = p'.1 →
      ∀ q ∈ p.2.hosts, ∀ q' ∈ p'.2.hosts, q.1 = q'.1 →
      q.2.last_seen = q'.2.last_seen → q.2 = q'.2)
    (hset : ∀ u ∈ us1, ∀ u' ∈ us1, ∀ p ∈ u.networks, ∀ p' ∈ u'.networks, p.1 = p'.1 →
      settingsOf p.2 = settingsOf p'.2) :
    dmEquiv (applyAll us1) (applyAll us2) := by
  have hwf2 : ∀ u ∈ us2, WFdm u := fun u hu => hwf u (hperm.mem_iff.mpr hu)
  intro n
  constructor
  · rw [settingsAt_applyAll us1 (fun u hu => (hwf u hu).1) n,
        settingsAt_applyAll us2 (fun u hu => (hwf2 u hu).1) n]
    have hmemiff : ∀ x : Settings,
        some x ∈ us1.map (fun u => settingsAt u n) ↔
          some x ∈ us2.map (fun u => settingsAt u n) :=
      fun x => (hperm.map (fun u => settingsAt u n)).mem_iff
    have hid1 : ∀ x : Settings, some x ∈ us1.map (fun u => settingsAt u n) →
        ∀ y : Settings, some y ∈ us1.map (fun u => settingsAt u n) → x = y := by
      intro x hx y hy
      obtain ⟨u, hu, hux⟩ := List.mem_map.mp hx
      obtain ⟨u', hu', huy⟩ := List.mem_map.mp hy
      obtain ⟨N, hN, hxN⟩ := settingsAt_mem hux
      obtain ⟨N', hN', hyN⟩ := settingsAt_mem huy
      rw [hxN, hyN]
      exact hset u hu u' hu' (n, N) hN (n, N') hN' rfl
    by_cases hex : ∃ x : Settings, some x ∈ us1.map (fun u => settingsAt u n)
    · obtain ⟨d, hd⟩ := hex
      have hid : ∀ x : Settings, some x ∈ us1.map (fun u => settingsAt u n) → x = d :=
        fun x hx => hid1 x hx d hd
      rw [foldl_smerge_eq_some _ d hid none (Or.inl ⟨rfl, d, hd⟩),
          foldl_smerge_eq_some _ d (fun x hx => hid x ((hmemiff x).mpr hx)) none
            (Or.inl ⟨rfl, d, (hmemiff d).mp hd⟩)]
    · push_neg at hex
      rw [foldl_mergeOpt_none smerge _ hex,
          foldl_mergeOpt_none smerge _ (fun x hx => hex x ((hmemiff x).mpr hx))]
  · intro k
    rw [lookupHost_applyAll us1 hwf n k, lookupHost_applyAll us2 hwf2 n k]
    have hmemiff : ∀ x : Host,
        some x ∈ us1.map (fun u => lookupHost u n k) ↔
          some x ∈ us2.map (fun u => lookupHost u n k) :=
      fun x => (hperm.map (fun u => lookupHost u n k)).mem_iff
    have hver1 : ∀ h : Host, some h ∈ us1.map (fun u => lookupHost u n k) →
        Host.verify h = true := by
      intro h hh
      obtain ⟨u, hu, huh⟩ := List.mem_map.mp hh
      obtain ⟨N, hN, hhN⟩ := lookupHost_mem huh
      exact hver u hu (n, N) hN (k, h) hhN
    have hties1 : ∀ h1 : Host, some h1 ∈ us1.map (fun u => lookupHost u n k) →
        ∀ h2 : Host, some h2 ∈ us1.map (fun u => lookupHost u n k) →
        h1.last_seen = h2.last_seen → h1 = h2 := by
      intro h1 hh1 h2 hh2 hls
      obtain ⟨u, hu, huh⟩ := List.mem_map.mp hh1
      obtain ⟨u', hu', huh'⟩ := List.mem_map.mp hh2
      obtain ⟨N, hN, hhN⟩ := lookupHost_mem huh
      obtain ⟨N', hN', hhN'⟩ := lookupHost_mem huh'
      exact hties u hu u' hu' (n, N) hN (n, N') hN' rfl (k, h1) hhN (k, h2) hhN' rfl hls
    have hl1 : IsLWW (us1.map (fun u => lookupHost u n k))
        ((us1.map (fun u => lookupHost u n k)).foldl (mergeOpt Host.merge) none) := by
      have := foldl_mergeOpt_host (us1.map (fun u => lookupHost u n k)) none []
        (fun x hx => (List.not_mem_nil _) hx) hver1
      simpa using this
    have hl2 : IsLWW (us2.map (fun u => lookupHost u n k))
        ((us2.map (fun u => lookupHost u n k)).foldl (mergeOpt Host.merge) none) := by
      have := foldl_mergeOpt_host (us2.map (fun u => lookupHost u n k)) none []
        (fun x hx => (List.not_mem_nil _) hx)
        (fun h hh => hver1 h ((hmemiff h).mpr hh))
      simpa using this
    exact IsLWW_unique _ _ hmemiff hties1 hl1 hl2

/-- C1 witness: two updates with distinct `last_seen`, valid signatures and
identical settings converge in either order. -/
theorem c1_witness : dmEquiv (applyAll [c1wu1, c1wu2]) (applyAll [c1wu2, c1wu1]) :=
  c1_amended [c1wu1, c1wu2] [c1wu2, c1wu1] (by decide) (by decide) (by decide)
    (by decide) (by decide)
